import Mathlib

/-!
Shallow embedding of the DMP (dynamic movement primitives) library
(`src/dmp.cpp` and `nodes/dmp_server.cpp`) over exact rational arithmetic.

Modelling conventions:
* C++ `double` is modelled by `ℚ` (exact field arithmetic; floating-point
  rounding is out of scope of the claims checked here).
* The transcendental library functions used by the code (`exp`, `acos`,
  `sqrt`, `M_PI`, and Eigen's angle-axis-to-rotation-matrix conversion) are
  not defined in the repository sources; they are carried as abstract
  function parameters (`MathOps`), so every theorem below holds for an
  arbitrary interpretation of these primitives.
* `std::vector` element access `v[i]` is modelled by `List.getD i 0`; an
  out-of-bounds C++ access (undefined behaviour) is modelled by the default
  value `0`, and the claims about access safety are stated via explicit
  bounds predicates that mirror each access the code performs.
* The `FourierApprox` function approximator is implemented outside the
  provided sources; its evaluation is kept abstract as a function
  `fapx : List ℚ → ℚ → ℚ` from a weight vector to an evaluator.
-/

namespace DMP

/-- `alpha = -log(0.01)` is irrational, so it is kept as an abstract
parameter alongside the abstract `exp`. `calcPhase` mirrors
`dmp.cpp:61-64`: `exp(-(alpha/tau)*curr_time)`. -/
def calcPhase (expf : ℚ → ℚ) (alpha curr_time tau : ℚ) : ℚ :=
  expf (-(alpha / tau) * curr_time)

/-- One point of a trajectory (`DMPPoint` message): positions and
velocities per dimension. -/
structure DMPPoint where
  positions : List ℚ
  velocities : List ℚ
deriving DecidableEq

instance : Inhabited DMPPoint := ⟨⟨[], []⟩⟩

/-- A time-stamped trajectory (`DMPTraj` message). -/
structure DMPTraj where
  points : List DMPPoint
  times : List ℚ
deriving DecidableEq

/-- One per-dimension primitive (`DMPData` message). -/
structure DMPData where
  weights : List ℚ
  k_gain : ℚ
  d_gain : ℚ
  f_domain : List ℚ
  f_targets : List ℚ
deriving DecidableEq

instance : Inhabited DMPData := ⟨⟨[], 0, 0, [], []⟩⟩

/-- `demo.points[i].positions[d]` (out of bounds modelled as 0). -/
def xDemo (demo : DMPTraj) (d i : ℕ) : ℚ :=
  (demo.points.getD i default).positions.getD d 0

/-- `demo.times[i]` (out of bounds modelled as 0). -/
def tDemo (demo : DMPTraj) (i : ℕ) : ℚ :=
  demo.times.getD i 0

/-- The velocity / acceleration scratch arrays built by the loop at
`dmp.cpp:108-115`: `v_demo[0] = 0`, `v_dot_demo[0] = 0`, and for
`i = 1 .. m`: `v_demo[i] = dx/dt`,
`v_dot_demo[i] = (v_demo[i] - v_demo[i-1])/dt`.  The pair holds
(`v_demo`, `v_dot_demo`) restricted to the first `m+1` cells, built
iteratively exactly as the loop writes them. -/
def vArrays (xf tf : ℕ → ℚ) : ℕ → List ℚ × List ℚ
  | 0 => ([0], [0])
  | i + 1 =>
    let p := vArrays xf tf i
    let dx := xf (i + 1) - xf i
    let dt := tf (i + 1) - tf i
    let vi := dx / dt
    let vprev := p.1.getD i 0
    (p.1 ++ [vi], p.2 ++ [(vi - vprev) / dt])

/-- Forcing-term targets for one dimension, mirroring the loop at
`dmp.cpp:117-123`:
`f_targets[i] = (((tau*tau*v_dot_demo[i] + curr_d*tau*v_demo[i]) / curr_k)
 - (goal - x_demo[i]) + ((goal - x_0)*phase)) / phase`. -/
def fTargetsDim (expf : ℚ → ℚ) (alpha : ℚ) (demo : DMPTraj) (kg dg : ℚ)
    (d : ℕ) : List ℚ :=
  let n_pts := demo.points.length
  let tau := tDemo demo (n_pts - 1)
  let x_0 := xDemo demo d 0
  let goal := xDemo demo d (n_pts - 1)
  let va := vArrays (fun i => xDemo demo d i) (tDemo demo) (n_pts - 1)
  (List.range n_pts).map (fun i =>
    let phase := calcPhase expf alpha (tDemo demo i) tau
    (((tau * tau * va.2.getD i 0 + dg * tau * va.1.getD i 0) / kg)
      - (goal - xDemo demo d i) + (goal - x_0) * phase) / phase)

/-- Scaled-time fit domain, `f_domain[i] = demo.times[i]/tau`
(`dmp.cpp:120`). -/
def fDomain (demo : DMPTraj) : List ℚ :=
  let n_pts := demo.points.length
  let tau := tDemo demo (n_pts - 1)
  (List.range n_pts).map (fun i => tDemo demo i / tau)

/-- `learnFromDemo` (`dmp.cpp:75-146`).  `fit` abstracts
`FourierApprox::leastSquaresWeights` / `getWeights` (that code is not part
of the provided sources).  An empty demo returns an empty list, mirroring
the early `return` at `dmp.cpp:83-86`. -/
def learnFromDemo (expf : ℚ → ℚ) (alpha : ℚ)
    (fit : List ℚ → List ℚ → List ℚ) (demo : DMPTraj)
    (k_gains d_gains : List ℚ) : List DMPData :=
  if demo.points.length < 1 then []
  else
    let dims := (demo.points.getD 0 default).positions.length
    (List.range dims).map (fun d =>
      let kg := k_gains.getD d 0
      let dg := d_gains.getD d 0
      let fdom := fDomain demo
      let ftgt := fTargetsDim expf alpha demo kg dg d
      ⟨fit fdom ftgt, kg, dg, fdom, ftgt⟩)

/-- Velocity estimate as worded by the spec:
`v[i] = (x[i]-x[i-1]) / (t[i]-t[i-1])`, `v[0] = 0`. -/
def vSpec (xf tf : ℕ → ℚ) : ℕ → ℚ
  | 0 => 0
  | i + 1 => (xf (i + 1) - xf i) / (tf (i + 1) - tf i)

/-- Acceleration estimate as worded by the spec: first difference of
`vSpec` over time, `v_dot[0] = 0`. -/
def vDotSpec (xf tf : ℕ → ℚ) : ℕ → ℚ
  | 0 => 0
  | i + 1 => (vSpec xf tf (i + 1) - vSpec xf tf i) / (tf (i + 1) - tf i)

/-- The forcing-term target exactly as the spec words it:
`target[i] = ((tau^2*v_dot[i] + d*tau*v[i]) / k - (goal - x[i])
 + (goal - x_0)*phase(t[i],tau)) / phase(t[i],tau)`. -/
def targetSpec (expf : ℚ → ℚ) (alpha : ℚ) (demo : DMPTraj) (kg dg : ℚ)
    (d i : ℕ) : ℚ :=
  let n_pts := demo.points.length
  let tau := tDemo demo (n_pts - 1)
  let x_0 := xDemo demo d 0
  let goal := xDemo demo d (n_pts - 1)
  let phase := calcPhase expf alpha (tDemo demo i) tau
  ((tau * tau * vDotSpec (xDemo demo d) (tDemo demo) i
      + dg * tau * vSpec (xDemo demo d) (tDemo demo) i) / kg
    - (goal - xDemo demo d i) + (goal - x_0) * phase) / phase

lemma vArrays_fst_length (xf tf : ℕ → ℚ) (m : ℕ) :
    (vArrays xf tf m).1.length = m + 1 := by
  induction m with
  | zero => rfl
  | succ i ih => simp [vArrays, ih]

lemma vArrays_snd_length (xf tf : ℕ → ℚ) (m : ℕ) :
    (vArrays xf tf m).2.length = m + 1 := by
  induction m with
  | zero => rfl
  | succ i ih => simp [vArrays, ih]

lemma getD_range_map {α : Type} [Inhabited α] (f : ℕ → α) (n i : ℕ)
    (h : i < n) (d : α) : ((List.range n).map f).getD i d = f i := by
  rw [List.getD_eq_getElem ((List.range n).map f) d (by simpa using h)]
  simp

lemma vArrays_fst_getD (xf tf : ℕ → ℚ) (m i : ℕ) (h : i ≤ m) :
    (vArrays xf tf m).1.getD i 0 = vSpec xf tf i := by
  induction m with
  | zero =>
    interval_cases i
    rfl
  | succ j ih =>
    rcases Nat.lt_or_ge i (j + 1) with hlt | hge
    · have hi : i ≤ j := Nat.lt_succ_iff.mp hlt
      have hlen : i < (vArrays xf tf j).1.length := by
        rw [vArrays_fst_length]; omega
      simp only [vArrays]
      rw [List.getD_append _ _ _ _ hlen]
      exact ih hi
    · have hieq : i = j + 1 := le_antisymm h hge
      subst hieq
      simp only [vArrays]
      have hlen : (vArrays xf tf j).1.length = j + 1 := vArrays_fst_length xf tf j
      rw [List.getD_eq_getElem _ _ (by simp [hlen])]
      rw [List.getElem_append_right (by omega)]
      simp [hlen, vSpec]

lemma vArrays_snd_getD (xf tf : ℕ → ℚ) (m i : ℕ) (h : i ≤ m) :
    (vArrays xf tf m).2.getD i 0 = vDotSpec xf tf i := by
  induction m with
  | zero =>
    interval_cases i
    rfl
  | succ j ih =>
    rcases Nat.lt_or_ge i (j + 1) with hlt | hge
    · have hi : i ≤ j := Nat.lt_succ_iff.mp hlt
      have hlen : i < (vArrays xf tf j).2.length := by
        rw [vArrays_snd_length]; omega
      simp only [vArrays]
      rw [List.getD_append _ _ _ _ hlen]
      exact ih hi
    · have hieq : i = j + 1 := le_antisymm h hge
      subst hieq
      simp only [vArrays]
      have hlen : (vArrays xf tf j).2.length = j + 1 := vArrays_snd_length xf tf j
      rw [List.getD_eq_getElem _ _ (by simp [hlen])]
      rw [List.getElem_append_right (by omega)]
      simp only [hlen]
      have hfst : (vArrays xf tf j).1.getD j 0 = vSpec xf tf j :=
        vArrays_fst_getD xf tf j j le_rfl
      simp only [List.getD, List.get?_eq_getElem?] at hfst
      simp [vDotSpec, vSpec, hfst]

/-- Claim C1: for a non-empty demonstration, every forcing-term target
produced by `learnFromDemo` for dimension `d` and sample `i` equals the
spec's closed formula
`((tau^2*v_dot[i] + d_gain*tau*v[i])/k_gain - (goal - x[i])
  + (goal - x_0)*phase(t[i],tau)) / phase(t[i],tau)`
with `v`, `v_dot` the first-difference estimates (`v[0] = v_dot[0] = 0`),
`tau` the last demo timestamp, `x_0` the first and `goal` the last
position. -/
theorem learnFromDemo_targets_eq_spec (expf : ℚ → ℚ) (alpha : ℚ)
    (fit : List ℚ → List ℚ → List ℚ) (demo : DMPTraj)
    (k_gains d_gains : List ℚ) (d i : ℕ)
    (hne : demo.points ≠ [])
    (hdd : d < (demo.points.getD 0 default).positions.length)
    (hi : i < demo.points.length) :
    ((learnFromDemo expf alpha fit demo k_gains d_gains).getD d
        default).f_targets.getD i 0 =
      targetSpec expf alpha demo (k_gains.getD d 0) (d_gains.getD d 0) d i := by
  have hlen : ¬ demo.points.length < 1 := by
    simp only [Nat.lt_one_iff, List.length_eq_zero]
    exact hne
  rw [learnFromDemo, if_neg hlen]
  rw [getD_range_map _ _ _ hdd]
  show (fTargetsDim expf alpha demo _ _ d).getD i 0 = _
  rw [fTargetsDim, getD_range_map _ _ _ hi]
  have hile : i ≤ demo.points.length - 1 := by omega
  rw [vArrays_fst_getD _ _ _ _ hile, vArrays_snd_getD _ _ _ _ hile]
  rfl

/-- Witness for C1 on a concrete 2-point, 1-dimensional demo. -/
theorem learnFromDemo_targets_eq_spec_witness :
    (⟨[⟨[0], []⟩, ⟨[10], []⟩], [0, 2]⟩ : DMPTraj).points ≠ [] ∧
      ((learnFromDemo (fun q => q + 1) 1 (fun _ _ => [])
          ⟨[⟨[0], []⟩, ⟨[10], []⟩], [0, 2]⟩ [25] [10]).getD 0
          default).f_targets.getD 1 0 =
        targetSpec (fun q => q + 1) 1 ⟨[⟨[0], []⟩, ⟨[10], []⟩], [0, 2]⟩
          25 10 0 1 :=
  ⟨by decide, learnFromDemo_targets_eq_spec (fun q => q + 1) 1 (fun _ _ => [])
    ⟨[⟨[0], []⟩, ⟨[10], []⟩], [0, 2]⟩ [25] [10] 0 1 (by decide) (by decide)
    (by decide)⟩

/-! ### Geometry helpers and the artificial-potential-field coupling -/

/-- 3-vector over ℚ (Eigen::Vector3d). -/
structure Vec3 where
  x : ℚ
  y : ℚ
  z : ℚ
deriving DecidableEq

instance : Inhabited Vec3 := ⟨⟨0, 0, 0⟩⟩

def Vec3.zero : Vec3 := ⟨0, 0, 0⟩

def Vec3.add (a b : Vec3) : Vec3 := ⟨a.x + b.x, a.y + b.y, a.z + b.z⟩

def Vec3.sub (a b : Vec3) : Vec3 := ⟨a.x - b.x, a.y - b.y, a.z - b.z⟩

def Vec3.smul (c : ℚ) (a : Vec3) : Vec3 := ⟨c * a.x, c * a.y, c * a.z⟩

def Vec3.dot (a b : Vec3) : ℚ := a.x * b.x + a.y * b.y + a.z * b.z

def Vec3.cross (a b : Vec3) : Vec3 :=
  ⟨a.y * b.z - a.z * b.y, a.z * b.x - a.x * b.z, a.x * b.y - a.y * b.x⟩

def Vec3.normSq (a : Vec3) : ℚ := a.x * a.x + a.y * a.y + a.z * a.z

/-- Element-wise (Hadamard) product, Eigen's `.array() * .array()`. -/
def Vec3.hadamard (a b : Vec3) : Vec3 := ⟨a.x * b.x, a.y * b.y, a.z * b.z⟩

/-- 3x3 matrix as three rows (Eigen::Matrix3d). -/
structure Mat3 where
  r0 : Vec3
  r1 : Vec3
  r2 : Vec3
deriving DecidableEq

def Mat3.mulVec (M : Mat3) (v : Vec3) : Vec3 :=
  ⟨M.r0.dot v, M.r1.dot v, M.r2.dot v⟩

/-- The library primitives the coupling code uses but the repository does
not define: `std::exp`, `std::acos`, the square root inside Eigen's
`.norm()`, `M_PI`, and `Eigen::AngleAxisd(angle, axis).toRotationMatrix()`.
All theorems hold for arbitrary interpretations. -/
structure MathOps where
  expf : ℚ → ℚ
  acosf : ℚ → ℚ
  sqrtf : ℚ → ℚ
  piq : ℚ
  rotM : ℚ → Vec3 → Mat3

/-- Eigen `.norm()`: square root of the squared norm. -/
def vnorm (ops : MathOps) (a : Vec3) : ℚ := ops.sqrtf a.normSq

/-- Eigen `.normalized()`: `v / ‖v‖` (for a zero norm the C++ result is
NaN; here `1/0 = 0` gives the zero vector — no claim depends on it). -/
def vnormalized (ops : MathOps) (a : Vec3) : Vec3 :=
  Vec3.smul (1 / vnorm ops a) a

/-- `epsilon = 1e-10` (`dmp.cpp:148`). -/
def epsilonQ : ℚ := 1 / 10000000000

/-- `calculate_bounding_box_dimensions` (`dmp.cpp:236-262`).  The `Bool`
records whether the error branch (`dmp.cpp:238-241`) printed to `cerr`;
that branch returns a default-constructed (unspecified-valued)
`Eigen::Vector3d`, modelled as `none`.  In the main path `min/max` for
index `i` fold over exactly the points long enough to have an `i`-th
coordinate, as the loop at `dmp.cpp:247-252` does. -/
def calculate_bounding_box_dimensions (points : List (List ℚ)) :
    Bool × Option Vec3 :=
  if points = [] ∨ points.headD [] = [] then (true, none)
  else
    let p0 := points.headD []
    let minv := fun i =>
      points.foldl (fun acc p => if i < p.length then min acc (p.getD i 0) else acc)
        (p0.getD i 0)
    let maxv := fun i =>
      points.foldl (fun acc p => if i < p.length then max acc (p.getD i 0) else acc)
        (p0.getD i 0)
    (false, some ⟨maxv 0 - minv 0, maxv 1 - minv 1, maxv 2 - minv 2⟩)

/-- `verticesVectorToEigen` (`dmp.cpp:276-287`): each row is read at
columns 0,1,2. -/
def verticesVectorToEigen (vertices : List (List ℚ)) : List Vec3 :=
  vertices.map (fun r => ⟨r.getD 0 0, r.getD 1 0, r.getD 2 0⟩)

/-- `calculateCentroid` (`dmp.cpp:264-274`): arithmetic mean of the rows.
No emptiness check is performed; for zero rows the C++ divides by zero
(NaN); over ℚ division by zero yields 0.  The `Bool` records whether an
error was reported — the function never reports one. -/
def calculateCentroid (points : List Vec3) : Bool × Vec3 :=
  (false,
    Vec3.smul (1 / (points.length : ℚ)) (points.foldl Vec3.add Vec3.zero))

/-- Index of the first minimum of a list (Eigen `minCoeff(&index)`); the
running index starts at 0, so an empty list yields 0 (the C++ reads an
element of an empty array there — undefined behaviour). -/
def argminIdx (l : List ℚ) : ℕ :=
  (l.enum.foldl
    (fun best cur => if cur.2 < best.2 then cur else best)
    (0, l.headD 0)).1

/-- `nearestObjectPoint` (`dmp.cpp:289-304`): distances from the query
point to every vertex, first index of the minimum, then that row.  No
emptiness check; for an empty vertex list the C++ `minCoeff`/`row(0)`
touch out-of-bounds data, modelled by the 0 fallbacks.  The `Bool`
records whether an error was reported — the function never reports one. -/
def nearestObjectPoint (ops : MathOps) (vertices : List Vec3)
    (path_point : Vec3) : Bool × Vec3 :=
  let distances := vertices.map (fun p => vnorm ops (Vec3.sub p path_point))
  (false, vertices.getD (argminIdx distances) Vec3.zero)

/-- Padded coefficient vectors (`dmp.cpp:197-202`): `beta` to at least 2
entries, `gamma` and `k` to at least 3 entries, with trailing zeros. -/
def padTo2 (l : List ℚ) : List ℚ :=
  if l.length < 2 then [l.getD 0 0, 0] else l

def padTo3 (l : List ℚ) : List ℚ :=
  if l.length < 3 then [l.getD 0 0, 0, 0] else l

/-- `artificialPotentialFieldCoupling` (`dmp.cpp:160-234`).  Returns the
three scalars pushed onto `apf_ct`.  The scalar chain
`gamma * R * v * theta * exp(..) * exp(..)` is one scalar multiple of
`R * v`.  In the vertex branch the second term uses the centroid rotation
`R` (line 220; the nearest-point rotation `R_p` of lines 215-216 is
computed but unused), and the final element-wise scale reuses the y-extent
for the z component (line 226). -/
def artificialPotentialFieldCoupling (ops : MathOps) (x v : List ℚ)
    (o : List (List ℚ)) (beta gamma k : List ℚ) (m n : ℚ) : List ℚ :=
  let x_e : Vec3 := ⟨x.getD 0 0, x.getD 1 0, x.getD 2 0⟩
  let v_e : Vec3 := ⟨v.getD 0 0, v.getD 1 0, v.getD 2 0⟩
  let apf_ct_e : Vec3 :=
    if o.length = 1 then
      let o0 := o.headD []
      let o_e : Vec3 := ⟨o0.getD 0 0, o0.getD 1 0, o0.getD 2 0⟩
      let o_diff := Vec3.sub o_e x_e
      let r := (1 / 2) * ops.piq * vnorm ops (Vec3.cross o_diff v_e)
      let R := ops.rotM r (vnormalized ops (Vec3.cross o_diff v_e))
      let theta := ops.acosf (Vec3.dot o_diff v_e /
        (vnorm ops o_diff * vnorm ops v_e + epsilonQ))
      Vec3.smul (gamma.getD 0 0 * theta * ops.expf (-(beta.getD 0 0) * theta)
        * ops.expf (-(k.getD 0 0) * vnorm ops o_diff)) (R.mulVec v_e)
    else
      let dim_e := (calculate_bounding_box_dimensions o).2.getD Vec3.zero
      let ov := verticesVectorToEigen o
      let oc_e := (calculateCentroid ov).2
      let op_e := (nearestObjectPoint ops ov x_e).2
      let beta' := padTo2 beta
      let gamma' := padTo3 gamma
      let k' := padTo3 k
      let oc_diff := Vec3.sub oc_e x_e
      let r := (1 / 2) * ops.piq * vnorm ops (Vec3.cross oc_diff v_e)
      let R := ops.rotM r (vnormalized ops (Vec3.cross oc_diff v_e))
      let theta_o := ops.acosf (Vec3.dot oc_diff v_e /
        (vnorm ops oc_diff * vnorm ops v_e + epsilonQ))
      let term1 := Vec3.smul (gamma'.getD 0 0 * theta_o
        * ops.expf (-(beta'.getD 0 0) * theta_o)
        * ops.expf (-(k'.getD 0 0) * vnorm ops oc_diff)) (R.mulVec v_e)
      let op_diff := Vec3.sub op_e x_e
      let theta_p := ops.acosf (Vec3.dot op_diff v_e /
        (vnorm ops op_diff * vnorm ops v_e + epsilonQ))
      let term2 := Vec3.smul (gamma'.getD 1 0 * theta_p
        * ops.expf (-(beta'.getD 1 0) * theta_p)
        * ops.expf (-(k'.getD 1 0) * vnorm ops op_diff)) (R.mulVec v_e)
      let term3 := Vec3.smul (gamma'.getD 2 0
        * ops.expf (-(k'.getD 2 0) * vnorm ops op_diff)) (R.mulVec v_e)
      let summed := (term1.add term2).add term3
      let dim_s_e : Vec3 := ⟨n + m * dim_e.x, n + m * dim_e.y, n + m * dim_e.y⟩
      summed.hadamard dim_s_e
  [apf_ct_e.x, apf_ct_e.y, apf_ct_e.z]

lemma getD_eq_zero_of_forall_zero {l : List ℚ} (h : ∀ g ∈ l, g = 0)
    (i : ℕ) : l.getD i 0 = 0 := by
  rcases Nat.lt_or_ge i l.length with hlt | hge
  · rw [List.getD_eq_getElem _ _ hlt]
    exact h _ (List.getElem_mem hlt)
  · rw [List.getD_eq_default _ _ hge]

lemma padTo3_getD_zero {l : List ℚ} (h : ∀ g ∈ l, g = 0) (i : ℕ) :
    (padTo3 l).getD i 0 = 0 := by
  unfold padTo3
  split
  · have h0 : l.getD 0 0 = 0 := getD_eq_zero_of_forall_zero h 0
    match i with
    | 0 => simpa using h0
    | 1 => rfl
    | 2 => rfl
    | (j + 3) => rfl
  · exact getD_eq_zero_of_forall_zero h i

lemma smul_zero_vec (a : Vec3) : Vec3.smul 0 a = Vec3.zero := by
  simp [Vec3.smul, Vec3.zero]

/-- Claim C6: if every entry of `gamma` is zero, the coupling acceleration
is the zero vector `[0,0,0]`, for every position, velocity, obstacle
geometry (point or vertex list), `beta`, `k`, scale factors, and every
interpretation of the library math primitives. -/
theorem apf_zero_gamma (ops : MathOps) (x v : List ℚ)
    (o : List (List ℚ)) (beta gamma k : List ℚ) (m n : ℚ)
    (h : ∀ g ∈ gamma, g = 0) :
    artificialPotentialFieldCoupling ops x v o beta gamma k m n = [0, 0, 0] := by
  have h0 := getD_eq_zero_of_forall_zero h 0
  have hp0 := padTo3_getD_zero h 0
  have hp1 := padTo3_getD_zero h 1
  have hp2 := padTo3_getD_zero h 2
  simp only [List.getD, List.get?_eq_getElem?] at h0 hp0 hp1 hp2
  unfold artificialPotentialFieldCoupling
  split
  · simp [h0, Vec3.smul]
  · simp [hp0, hp1, hp2, Vec3.smul, Vec3.add, Vec3.hadamard]

/-- Dummy interpretation of the math primitives for concrete witnesses. -/
def opsEx : MathOps :=
  ⟨fun q => q + 1, fun q => q, fun q => q, 3, fun _ _ => ⟨⟨1, 0, 0⟩, ⟨0, 1, 0⟩, ⟨0, 0, 1⟩⟩⟩

/-- Witness for C6: concrete call with a two-vertex obstacle and
`gamma = [0]`. -/
theorem apf_zero_gamma_witness :
    (∀ g ∈ ([0] : List ℚ), g = 0) ∧
      artificialPotentialFieldCoupling opsEx [1, 2, 3] [4, 5, 6]
        [[7, 8, 9], [1, 1, 1]] [2] [0] [5] 2 7 = [0, 0, 0] :=
  ⟨by decide, apf_zero_gamma opsEx [1, 2, 3] [4, 5, 6]
    [[7, 8, 9], [1, 1, 1]] [2] [0] [5] 2 7 (by decide)⟩

/-- Claim C7 counterexample: `calculateCentroid` on the empty vertex list
reports no error (the C++ function has no emptiness check; it divides by
the zero row count), contradicting the claim that every geometry helper
reports an error on an empty vertex list. -/
theorem centroid_empty_no_error_report :
    (calculateCentroid []).1 = false := by decide

/-- Claim C7 (amended): on an empty vertex list, only
`calculate_bounding_box_dimensions` detects the condition — it reports an
error and produces no computed result; `calculateCentroid` and
`nearestObjectPoint` perform no check and report nothing: the centroid
divides by the zero row count (NaN in C++ doubles, 0 here) and the
nearest-point helper falls back to row 0 of the empty matrix (out of
bounds in C++, the zero vector here). -/
theorem geometry_helpers_empty_input (ops : MathOps) (q : Vec3) :
    calculate_bounding_box_dimensions [] = (true, none) ∧
      calculateCentroid [] = (false, Vec3.zero) ∧
      nearestObjectPoint ops [] q = (false, Vec3.zero) := by
  refine ⟨rfl, ?_, rfl⟩
  simp [calculateCentroid, Vec3.smul, Vec3.zero]

/-! ### Access-bounds shadow of `artificialPotentialFieldCoupling` -/

/-- Every `std::vector` element access performed by
`artificialPotentialFieldCoupling` (`dmp.cpp:160-234`), in program order,
as an in-bounds condition:
* `x[0..2]`, `v[0..2]` (lines 171-172);
* point branch (`o.size()==1`, lines 174-183): `o[0][0..2]`, then
  `gamma[0]`, `beta[0]`, `k[0]`;
* vertex branch (lines 184-229): the bounding-box helper writes
  `min_values[i]`/`max_values[i]` for `i < point.size()` into arrays sized
  by `points[0]` and finally reads `dimensions[0..2]` (safe when it takes
  its error branch); `verticesVectorToEigen` reads columns 0-2 of every
  row; `minCoeff` inside `nearestObjectPoint` needs a non-empty list; the
  padding reads `beta[0]`, `gamma[0]`, `k[0]`; afterwards indices 1 (and
  2) of the padded vectors are always in bounds by construction. -/
def apfAccessOK (x v : List ℚ) (o : List (List ℚ))
    (beta gamma k : List ℚ) : Prop :=
  3 ≤ x.length ∧ 3 ≤ v.length ∧
    (if o.length = 1 then
      3 ≤ (o.headD []).length ∧
        1 ≤ gamma.length ∧ 1 ≤ beta.length ∧ 1 ≤ k.length
    else
      (o = [] ∨ o.headD [] = [] ∨
        ((∀ p ∈ o, p.length ≤ (o.headD []).length) ∧
          3 ≤ (o.headD []).length)) ∧
        (∀ p ∈ o, 3 ≤ p.length) ∧ 1 ≤ o.length ∧
        1 ≤ beta.length ∧ 1 ≤ gamma.length ∧ 1 ≤ k.length)

instance (x v : List ℚ) (o : List (List ℚ)) (beta gamma k : List ℚ) :
    Decidable (apfAccessOK x v o beta gamma k) := by
  unfold apfAccessOK
  infer_instance

/-- Claim C10 counterexample: position and velocity have 3 entries and
`beta`, `gamma`, `k` are non-empty, yet the call is not access-safe — the
obstacle is a single point given with only 2 coordinates, so the point
branch reads `o[0][2]` out of bounds. -/
theorem apf_access_counterexample :
    3 ≤ ([0, 0, 0] : List ℚ).length ∧
      3 ≤ ([0, 0, 0] : List ℚ).length ∧
      ([1] : List ℚ) ≠ [] ∧ ([1] : List ℚ) ≠ [] ∧ ([1] : List ℚ) ≠ [] ∧
      ¬ apfAccessOK [0, 0, 0] [0, 0, 0] [[1, 2]] [1] [1] [1] := by
  decide

/-- Claim C10 (amended): if the position and velocity vectors have at
least 3 entries, `beta`, `gamma`, `k` are non-empty, and the obstacle is a
non-empty list of rows of exactly 3 coordinates, then every vector element
access in `artificialPotentialFieldCoupling` is in bounds: the point
branch reads only index 0 of each coefficient vector, and the vertex
branch pads `beta` to at least 2 and `gamma`, `k` to at least 3 entries
before reading indices 1 and 2. -/
theorem apf_access_ok (x v : List ℚ) (o : List (List ℚ))
    (beta gamma k : List ℚ)
    (hx : 3 ≤ x.length) (hv : 3 ≤ v.length)
    (hb : beta ≠ []) (hg : gamma ≠ []) (hk : k ≠ [])
    (ho : o ≠ []) (hrow : ∀ p ∈ o, p.length = 3) :
    apfAccessOK x v o beta gamma k := by
  have hb1 : 1 ≤ beta.length := List.length_pos.mpr hb
  have hg1 : 1 ≤ gamma.length := List.length_pos.mpr hg
  have hk1 : 1 ≤ k.length := List.length_pos.mpr hk
  have ho1 : 1 ≤ o.length := List.length_pos.mpr ho
  have hhead : o.headD [] ∈ o := by
    cases o with
    | nil => exact absurd rfl ho
    | cons a l => simp
  have hh3 : (o.headD []).length = 3 := hrow _ hhead
  refine ⟨hx, hv, ?_⟩
  split
  · exact ⟨le_of_eq hh3.symm, hg1, hb1, hk1⟩
  · refine ⟨Or.inr (Or.inr ⟨fun p hp => ?_, le_of_eq hh3.symm⟩),
      fun p hp => le_of_eq (hrow p hp).symm, ho1, hb1, hg1, hk1⟩
    rw [hrow p hp, hh3]

/-- Witness for C10 (amended) at a concrete two-vertex obstacle. -/
theorem apf_access_ok_witness :
    apfAccessOK [0, 1, 2] [3, 4, 5] [[1, 2, 3], [4, 5, 6]] [1] [1] [1] :=
  apf_access_ok [0, 1, 2] [3, 4, 5] [[1, 2, 3], [4, 5, 6]] [1] [1] [1]
    (by decide) (by decide) (by decide) (by decide) (by decide) (by decide)
    (by decide)

/-! ### Obstacle request parsing (`nodes/dmp_server.cpp:17-22`) -/

/-- `planCallback`'s obstacle unflattening: more than 3 scalars start the
loop `for(i=0; i<size; i+=3)` pushing `{o[i],o[i+1],o[i+2]}` — it runs
`ceil(size/3)` times and reads past the end when the length is not a
multiple of 3 (undefined behaviour, modelled as 0); exactly 3 scalars give
a single point; anything shorter gives no obstacle. -/
def parseObstacle (l : List ℚ) : List (List ℚ) :=
  if 3 < l.length then
    (List.range ((l.length + 2) / 3)).map
      (fun j => [l.getD (3 * j) 0, l.getD (3 * j + 1) 0, l.getD (3 * j + 2) 0])
  else if l.length = 3 then [l]
  else []

/-- Splitting into consecutive triples — the spec's "vertex list". -/
def chunk3 : List ℚ → List (List ℚ)
  | [] => []
  | a :: b :: c :: rest => [a, b, c] :: chunk3 rest
  | l => [l]

/-- Claim C5 counterexample: a 4-scalar obstacle list is not treated as
"no obstacle"; the parser builds two vertex rows, the second padded by
out-of-range reads. -/
theorem parseObstacle_length4_not_empty :
    parseObstacle [1, 2, 3, 4] = [[1, 2, 3], [4, 0, 0]] ∧
      parseObstacle [1, 2, 3, 4] ≠ [] := by decide

lemma chunk3_pad_eq : (l : List ℚ) →
    (List.range ((l.length + 2) / 3)).map
      (fun j => [l.getD (3 * j) 0, l.getD (3 * j + 1) 0, l.getD (3 * j + 2) 0])
      = chunk3 (l ++ List.replicate ((3 - l.length % 3) % 3) 0)
  | [] => rfl
  | [a] => by
    have h1 : (([a] : List ℚ).length + 2) / 3 = 1 := by norm_num
    have h2 : ((3 : ℕ) - ([a] : List ℚ).length % 3) % 3 = 2 := by norm_num
    rw [h1, h2]
    rfl
  | [a, b] => by
    have h1 : (([a, b] : List ℚ).length + 2) / 3 = 1 := by norm_num
    have h2 : ((3 : ℕ) - ([a, b] : List ℚ).length % 3) % 3 = 1 := by norm_num
    rw [h1, h2]
    rfl
  | a :: b :: c :: rest => by
    have ih := chunk3_pad_eq rest
    have hlen : (a :: b :: c :: rest).length = rest.length + 3 := by
      simp
    have hdiv : (rest.length + 3 + 2) / 3 = (rest.length + 2) / 3 + 1 := by
      omega
    have hmod : (3 - (rest.length + 3) % 3) % 3 = (3 - rest.length % 3) % 3 := by
      omega
    rw [hlen, hdiv, hmod, List.range_succ_eq_map, List.map_cons, List.map_map]
    have hshift : ((fun j => [(a :: b :: c :: rest).getD (3 * j) 0,
        (a :: b :: c :: rest).getD (3 * j + 1) 0,
        (a :: b :: c :: rest).getD (3 * j + 2) 0]) ∘ Nat.succ)
        = (fun j => [rest.getD (3 * j) 0, rest.getD (3 * j + 1) 0,
            rest.getD (3 * j + 2) 0]) := by
      funext j
      have h0 : 3 * Nat.succ j = 3 * j + 1 + 1 + 1 := by omega
      have h1 : 3 * Nat.succ j + 1 = 3 * j + 1 + 1 + 1 + 1 := by omega
      have h2 : 3 * Nat.succ j + 2 = 3 * j + 2 + 1 + 1 + 1 := by omega
      simp only [Function.comp, h0, h1, h2, List.getD_cons_succ]
    rw [hshift, ih]
    rfl

/-- Claim C5 (amended): interpretation depends solely on the length, but
any length greater than 3 — multiple of 3 or not — is treated as a vertex
list: the scalars are cut into consecutive triples, the last triple padded
with zeros (out-of-bounds reads in C++) when the length is not a multiple
of 3.  Exactly 3 scalars give a single point obstacle and lengths 0-2
give no obstacle. -/
theorem parseObstacle_characterization (l : List ℚ) :
    parseObstacle l =
      if 3 < l.length then
        chunk3 (l ++ List.replicate ((3 - l.length % 3) % 3) 0)
      else if l.length = 3 then [l]
      else [] := by
  by_cases h3 : 3 < l.length
  · rw [parseObstacle, if_pos h3, if_pos h3]
    exact chunk3_pad_eq l
  · rw [parseObstacle, if_neg h3, if_neg h3]

/-! ### The trajectory planner `generatePlan` (`dmp.cpp:330-482`) -/

/-- `MAX_PLAN_LENGTH` (`dmp.cpp:51`). -/
def MAX_PLAN_LENGTH : ℚ := 1000

/-- All inputs of `generatePlan`, plus the abstract math primitives and
the abstract function-approximator evaluation `fapx` (mapping stored
weights to the `FourierApprox::evalAt` function — that class is not part
of the provided sources). -/
structure PlanParams where
  dmp_list : List DMPData
  x_0 : List ℚ
  x_dot_0 : List ℚ
  t_0 : ℚ
  goal : List ℚ
  goal_thresh : List ℚ
  seg_length : ℚ
  tau : ℚ
  total_dt : ℚ
  integrate_iter : ℕ
  obstacle : List (List ℚ)
  beta : List ℚ
  gamma : List ℚ
  k : List ℚ
  m : ℚ
  n : ℚ
  fapx : List ℚ → ℚ → ℚ
  ops : MathOps
  alpha : ℚ

/-- Mutable state of the planning `while` loop (`dmp.cpp:349-459`):
elapsed segment time `t`, number of emitted points `n_pts`, the
per-dimension position and scaled-velocity histories `x_vecs` /
`x_dot_vecs`, the time stamps `t_vec`, and the `at_goal` / `seg_end`
flags. -/
structure PlanState where
  t : ℚ
  n_pts : ℕ
  xs : List (List ℚ)
  xds : List (List ℚ)
  t_vec : List ℚ
  at_goal : Bool
  seg_end : Bool
deriving DecidableEq

/-- Loop entry state (`dmp.cpp:349-375`). -/
def initState (P : PlanParams) : PlanState :=
  ⟨0, 0, List.replicate P.dmp_list.length [], List.replicate P.dmp_list.length [],
    [], false, false⟩

/-- The `while` guard (`dmp.cpp:376`):
`((t+t_0) < tau || (!at_goal && t < MAX_PLAN_LENGTH)) && !seg_end`. -/
def planCond (P : PlanParams) (st : PlanState) : Bool :=
  (decide (st.t + P.t_0 < P.tau) ||
    (!st.at_goal && decide (st.t < MAX_PLAN_LENGTH))) && !st.seg_end

/-- The state (`x`, `v`) a dimension starts a time step from
(`dmp.cpp:406-414`): the initial conditions on the first point, otherwise
the previous entry, with the stored velocity re-scaled by `tau`. -/
def dimStart (P : PlanParams) (st : PlanState) (i : ℕ) : ℚ × ℚ :=
  if st.n_pts = 0 then (P.x_0.getD i 0, P.x_dot_0.getD i 0)
  else ((st.xs.getD i []).getD (st.n_pts - 1) 0,
    (st.xds.getD i []).getD (st.n_pts - 1) 0 * P.tau)

/-- One forward-Euler sub-step (`dmp.cpp:417-439`): phase `s` at
`(t+t_0) + dt*iter`, forcing term `f_eval` cut off once the scaled time
`(t+t_0)/tau` reaches 1, the transformation-system acceleration `v_dot`,
and the updates `v += v_dot*dt`, `x += x_dot*dt` (with `x_dot = v/tau`
computed from the pre-update `v`). -/
def innerUpdate (P : PlanParams) (kg dg x0i goali apfi : ℚ) (fi : ℚ → ℚ)
    (tcur : ℚ) (xv : ℚ × ℚ) (iter : ℕ) : ℚ × ℚ :=
  let dt := P.total_dt / (P.integrate_iter : ℚ)
  let s := calcPhase P.ops.expf P.alpha ((tcur + P.t_0) + dt * (iter : ℚ)) P.tau
  let log_s := (tcur + P.t_0) / P.tau
  let f_eval := if 1 ≤ log_s then 0 else fi log_s * s
  let v_dot := (kg * ((goali - xv.1) - (goali - x0i) * s + f_eval)
    - dg * xv.2 + apfi) / P.tau
  let x_dot := xv.2 / P.tau
  (xv.1 + x_dot * dt, xv.2 + v_dot * dt)

/-- The whole inner integration loop for dimension `i` of one time step
(`dmp.cpp:417-439`), folded over `iter = 0 .. integrate_iter-1`. -/
def dimIntegrate (P : PlanParams) (st : PlanState) (apf : List ℚ) (i : ℕ) :
    ℚ × ℚ :=
  (List.range P.integrate_iter).foldl
    (innerUpdate P (P.dmp_list.getD i default).k_gain
      (P.dmp_list.getD i default).d_gain (P.x_0.getD i 0) (P.goal.getD i 0)
      (apf.getD i 0) (P.fapx (P.dmp_list.getD i default).weights) st.t)
    (dimStart P st i)

/-- The obstacle-coupling vector for one time step (`dmp.cpp:382-400`):
computed from the previous position and re-scaled velocity (or the
initial state on the first point) when an obstacle is present and the
dimensionality is 3 or 6, zero-padded from 3 to 6 entries for
`dims == 6`; otherwise all zeros. -/
def apfStep (P : PlanParams) (st : PlanState) : List ℚ :=
  let dims := P.dmp_list.length
  if 0 < P.obstacle.length ∧ (dims = 3 ∨ dims = 6) then
    let x_avd := if st.n_pts = 0 then
        [P.x_0.getD 0 0, P.x_0.getD 1 0, P.x_0.getD 2 0]
      else
        [(st.xs.getD 0 []).getD (st.n_pts - 1) 0,
          (st.xs.getD 1 []).getD (st.n_pts - 1) 0,
          (st.xs.getD 2 []).getD (st.n_pts - 1) 0]
    let v_avd := if st.n_pts = 0 then
        [P.x_dot_0.getD 0 0, P.x_dot_0.getD 1 0, P.x_dot_0.getD 2 0]
      else
        [(st.xds.getD 0 []).getD (st.n_pts - 1) 0 * P.tau,
          (st.xds.getD 1 []).getD (st.n_pts - 1) 0 * P.tau,
          (st.xds.getD 2 []).getD (st.n_pts - 1) 0 * P.tau]
    let base := artificialPotentialFieldCoupling P.ops x_avd v_avd P.obstacle
      P.beta P.gamma P.k P.m P.n
    if dims = 6 then base ++ List.replicate 3 0 else base
  else List.replicate dims 0

/-- The goal test of `dmp.cpp:452-457`: `at_goal` stays true unless some
dimension with a positive threshold has `|x - goal|` above it. -/
def atGoalCheck (P : PlanParams) (xs : List (List ℚ)) (npts : ℕ) : Bool :=
  (List.range P.dmp_list.length).all (fun i =>
    if 0 < P.goal_thresh.getD i 0 then
      decide (|(xs.getD i []).getD (npts - 1) 0 - P.goal.getD i 0| ≤
        P.goal_thresh.getD i 0)
    else true)

/-- One iteration of the planning `while` loop body (`dmp.cpp:376-459`):
update `seg_end` from the pre-increment `t` (`dmp.cpp:378-380`), compute
the coupling, integrate every dimension, append the new point, advance
`t`, and recompute `at_goal` only once `(t+t_0) >= tau`. -/
def planStep (P : PlanParams) (st : PlanState) : PlanState :=
  let dims := P.dmp_list.length
  let seg_end := st.seg_end ||
    (decide (0 < P.seg_length) && decide (P.seg_length < st.t))
  let apf := apfStep P st
  let upd := (List.range dims).map (fun i => dimIntegrate P st apf i)
  let xs := (List.range dims).map (fun i =>
    st.xs.getD i [] ++ [(upd.getD i (0, 0)).1])
  let xds := (List.range dims).map (fun i =>
    st.xds.getD i [] ++ [(upd.getD i (0, 0)).2 / P.tau])
  let t := st.t + P.total_dt
  let t_vec := st.t_vec ++ [t]
  let n_pts := st.n_pts + 1
  let at_goal := if P.tau ≤ t + P.t_0 then atGoalCheck P xs n_pts
    else st.at_goal
  ⟨t, n_pts, xs, xds, t_vec, at_goal, seg_end⟩

/-- Fuel-indexed run of the `while` loop: perform up to `fuel` guarded
iterations; a state whose guard is false is returned unchanged (and stays
fixed for any larger fuel — the termination theorem below shows enough
fuel always exists). -/
def planRun (P : PlanParams) : ℕ → PlanState → PlanState
  | 0, st => st
  | fuel + 1, st => if planCond P st then planRun P fuel (planStep P st) else st

/-- The trajectory assembly of `dmp.cpp:461-473`: point `j` collects
entry `j` of every dimension's position and velocity history. -/
def planPointsList (P : PlanParams) (st : PlanState) : List DMPPoint :=
  (List.range st.n_pts).map (fun j =>
    ⟨(List.range P.dmp_list.length).map (fun i => (st.xs.getD i []).getD j 0),
      (List.range P.dmp_list.length).map (fun i => (st.xds.getD i []).getD j 0)⟩)

/-- One planning sub-step exactly as the spec words it:
`s = phase(t+t_0+dt*iter, tau)`,
`f_eval = approximator.evaluate((t+t_0)/tau) * s` unless
`(t+t_0)/tau >= 1` in which case `f_eval = 0`,
`v_dot = (k_gain*((goal-x) - (goal-x_0)*s + f_eval) - d_gain*v + coupling)/tau`,
`x_dot = v/tau`, then `v += v_dot*dt`, `x += x_dot*dt`. -/
def specSubStep (expf : ℚ → ℚ) (alpha kg dg x0i goali coupling tau t0 tcur
    dt : ℚ) (fapprox : ℚ → ℚ) (xv : ℚ × ℚ) (iter : ℕ) : ℚ × ℚ :=
  let s := calcPhase expf alpha (tcur + t0 + dt * (iter : ℚ)) tau
  let f_eval := if 1 ≤ (tcur + t0) / tau then 0 else fapprox ((tcur + t0) / tau) * s
  let v_dot := (kg * ((goali - xv.1) - (goali - x0i) * s + f_eval)
    - dg * xv.2 + coupling) / tau
  (xv.1 + (xv.2 / tau) * dt, xv.2 + v_dot * dt)

/-- Claim C2: in every planning time step, the per-dimension inner
integration performed by `generatePlan` is exactly the fold of the spec's
sub-step update: velocity update
`v_dot = (k_gain*((goal-x) - (goal-x_0)*s + f_eval) - d_gain*v + coupling)/tau`
with `s = phase(t+t_0+dt*iter, tau)` and
`f_eval = approximator((t+t_0)/tau) * s`, except `f_eval = 0` when
`(t+t_0)/tau >= 1`. -/
theorem dimIntegrate_eq_specSubStep (P : PlanParams) (st : PlanState)
    (apf : List ℚ) (i : ℕ) :
    dimIntegrate P st apf i =
      (List.range P.integrate_iter).foldl
        (specSubStep P.ops.expf P.alpha (P.dmp_list.getD i default).k_gain
          (P.dmp_list.getD i default).d_gain (P.x_0.getD i 0)
          (P.goal.getD i 0) (apf.getD i 0) P.tau P.t_0 st.t
          (P.total_dt / (P.integrate_iter : ℚ))
          (P.fapx (P.dmp_list.getD i default).weights))
        (dimStart P st i) := rfl

lemma planStep_t (P : PlanParams) (st : PlanState) :
    (planStep P st).t = st.t + P.total_dt := rfl

lemma planStep_n_pts (P : PlanParams) (st : PlanState) :
    (planStep P st).n_pts = st.n_pts + 1 := rfl

lemma planStep_t_vec (P : PlanParams) (st : PlanState) :
    (planStep P st).t_vec = st.t_vec ++ [st.t + P.total_dt] := rfl

lemma planRun_preserve (P : PlanParams) (Q : PlanState → Prop)
    (hstep : ∀ st, Q st → planCond P st = true → Q (planStep P st)) :
    ∀ (n : ℕ) (st : PlanState), Q st → Q (planRun P n st) := by
  intro n
  induction n with
  | zero => intro st h; exact h
  | succ m ih =>
    intro st h
    rw [planRun]
    split
    · exact ih _ (hstep st h (by assumption))
    · exact h

lemma planRun_frozen (P : PlanParams) {st : PlanState}
    (h : planCond P st = false) : ∀ n, planRun P n st = st := by
  intro n
  cases n with
  | zero => rfl
  | succ m => rw [planRun, if_neg (by simp [h])]

lemma planRun_progress (P : PlanParams) :
    ∀ (n : ℕ) (st : PlanState), planCond P (planRun P n st) = true →
      (planRun P n st).n_pts = st.n_pts + n := by
  intro n
  induction n with
  | zero => intro st _; rfl
  | succ m ih =>
    intro st h
    by_cases hc : planCond P st = true
    · rw [planRun, if_pos hc] at h ⊢
      rw [ih _ h, planStep_n_pts]
      omega
    · rw [planRun_frozen P (Bool.eq_false_iff.mpr hc)] at h
      exact absurd h hc

lemma planRun_n_pts_mono (P : PlanParams) :
    ∀ (n : ℕ) (st : PlanState), st.n_pts ≤ (planRun P n st).n_pts := by
  intro n
  induction n with
  | zero => intro st; exact le_rfl
  | succ m ih =>
    intro st
    rw [planRun]
    split
    · calc st.n_pts ≤ (planStep P st).n_pts := by rw [planStep_n_pts]; omega
        _ ≤ _ := ih _
    · exact le_rfl

/-- Time-bookkeeping invariant of the planning loop: `t` counts the
emitted points times `total_dt`, and the stamp list holds
`(j+1)*total_dt` at position `j`. -/
def timeInv (P : PlanParams) (st : PlanState) : Prop :=
  st.t = (st.n_pts : ℚ) * P.total_dt ∧ st.t_vec.length = st.n_pts ∧
    ∀ j < st.n_pts, st.t_vec.getD j 0 = ((j : ℚ) + 1) * P.total_dt

lemma timeInv_init (P : PlanParams) : timeInv P (initState P) := by
  refine ⟨by simp [initState], by simp [initState], ?_⟩
  intro j hj
  simp [initState] at hj

lemma timeInv_step (P : PlanParams) {st : PlanState} (h : timeInv P st) :
    timeInv P (planStep P st) := by
  obtain ⟨ht, hlen, hstamps⟩ := h
  refine ⟨?_, ?_, ?_⟩
  · rw [planStep_t, planStep_n_pts, ht]
    push_cast
    ring
  · rw [planStep_t_vec, planStep_n_pts, List.length_append, hlen]
    rfl
  · intro j hj
    rw [planStep_n_pts] at hj
    rw [planStep_t_vec]
    rcases Nat.lt_or_ge j st.n_pts with hlt | hge
    · rw [List.getD_append _ _ _ _ (by omega)]
      exact hstamps j hlt
    · have hj' : j = st.n_pts := by omega
      subst hj'
      rw [List.getD_eq_getElem _ _ (by simp [hlen])]
      rw [List.getElem_append_right (by omega)]
      simp only [hlen]
      rw [ht]
      ring_nf
      simp

lemma timeInv_run (P : PlanParams) (n : ℕ) :
    timeInv P (planRun P n (initState P)) :=
  planRun_preserve P (timeInv P) (fun _ h _ => timeInv_step P h) n _
    (timeInv_init P)

/-- Claim C8: for `total_dt > 0`, at any stage of the planning loop the
produced time sequence has one stamp per trajectory point, stamp `j`
equals `(j+1)*total_dt`, and the sequence is strictly increasing with
constant step `total_dt`. -/
theorem plan_times_arithmetic (P : PlanParams) (hdt : 0 < P.total_dt)
    (n : ℕ) :
    (planRun P n (initState P)).t_vec.length =
        (planPointsList P (planRun P n (initState P))).length ∧
      (∀ j < (planRun P n (initState P)).n_pts,
        (planRun P n (initState P)).t_vec.getD j 0 = ((j : ℚ) + 1) * P.total_dt) ∧
      ∀ j, j + 1 < (planRun P n (initState P)).n_pts →
        (planRun P n (initState P)).t_vec.getD j 0 <
          (planRun P n (initState P)).t_vec.getD (j + 1) 0 := by
  obtain ⟨ht, hlen, hstamps⟩ := timeInv_run P n
  refine ⟨?_, hstamps, ?_⟩
  · rw [hlen, planPointsList, List.length_map, List.length_range]
  · intro j hj
    rw [hstamps j (by omega), hstamps (j + 1) (by omega)]
    have : ((j : ℚ) + 1) < ((j : ℚ) + 1 + 1) := by linarith
    push_cast
    nlinarith

/-- Concrete parameter set used for counterexamples and witnesses:
no dimensions, `tau = 3000`, `t_0 = 0`, `total_dt = 1000`,
`integrate_iter = 1`, unbounded segment, no obstacle. -/
def Pcex : PlanParams :=
  ⟨[], [], [], 0, [], [], -1, 3000, 1000, 1, [], [], [], [], 0, 0,
    fun _ _ => 0, opsEx, 1⟩

/-- Witness for C8 at the concrete parameters, first loop stage. -/
theorem plan_times_arithmetic_witness :
    (0 : ℚ) < Pcex.total_dt ∧
      (planRun Pcex 1 (initState Pcex)).t_vec.length =
        (planPointsList Pcex (planRun Pcex 1 (initState Pcex))).length :=
  ⟨by norm_num [Pcex], (plan_times_arithmetic Pcex (by norm_num [Pcex]) 1).1⟩

/-- The meaning the spec assigns to `at_goal`: the nominal duration has
elapsed and every dimension with a positive threshold is within it. -/
def atGoalSem (P : PlanParams) (st : PlanState) : Prop :=
  P.tau ≤ st.t + P.t_0 ∧ ∀ i < P.dmp_list.length,
    0 < P.goal_thresh.getD i 0 →
      |(st.xs.getD i []).getD (st.n_pts - 1) 0 - P.goal.getD i 0| ≤
        P.goal_thresh.getD i 0

lemma atGoalCheck_iff (P : PlanParams) (xs : List (List ℚ)) (npts : ℕ) :
    atGoalCheck P xs npts = true ↔
      ∀ i < P.dmp_list.length, 0 < P.goal_thresh.getD i 0 →
        |(xs.getD i []).getD (npts - 1) 0 - P.goal.getD i 0| ≤
          P.goal_thresh.getD i 0 := by
  unfold atGoalCheck
  rw [List.all_eq_true]
  constructor
  · intro h i hi hpos
    have hh := h i (List.mem_range.mpr hi)
    rw [if_pos hpos] at hh
    exact of_decide_eq_true hh
  · intro h x hx
    split
    · exact decide_eq_true (h x (List.mem_range.mp hx) (by assumption))
    · rfl

lemma planStep_at_goal (P : PlanParams) (st : PlanState) :
    (planStep P st).at_goal =
      if P.tau ≤ (planStep P st).t + P.t_0 then
        atGoalCheck P (planStep P st).xs (planStep P st).n_pts
      else st.at_goal := rfl

lemma at_goal_step_iff (P : PlanParams) {st : PlanState}
    (hdt : 0 ≤ P.total_dt)
    (hK : st.at_goal = true → P.tau ≤ st.t + P.t_0) :
    ((planStep P st).at_goal = true ↔ atGoalSem P (planStep P st)) := by
  rw [planStep_at_goal]
  by_cases hτ : P.tau ≤ (planStep P st).t + P.t_0
  · rw [if_pos hτ]
    unfold atGoalSem
    rw [atGoalCheck_iff]
    exact ⟨fun h => ⟨hτ, h⟩, fun h => h.2⟩
  · rw [if_neg hτ]
    have hfalse : st.at_goal = false := by
      cases hag : st.at_goal
      · rfl
      · exfalso
        have h1 := hK hag
        rw [planStep_t] at hτ
        exact hτ (by linarith)
    rw [hfalse]
    unfold atGoalSem
    simp only [Bool.false_eq_true, false_iff, not_and]
    intro hsem
    exact absurd hsem hτ

lemma at_goal_iff_run (P : PlanParams) (hdt : 0 ≤ P.total_dt) :
    ∀ (n : ℕ) (st : PlanState),
      (st.at_goal = true → P.tau ≤ st.t + P.t_0) →
      (st.at_goal = true ↔ atGoalSem P st) →
      ((planRun P n st).at_goal = true ↔ atGoalSem P (planRun P n st)) := by
  intro n
  induction n with
  | zero => intro st _ hI; exact hI
  | succ m ih =>
    intro st hK hI
    rw [planRun]
    split
    · exact ih _ (fun h => ((at_goal_step_iff P hdt hK).mp h).1)
        (at_goal_step_iff P hdt hK)
    · exact hI

lemma planCond_init (P : PlanParams) : planCond P (initState P) = true := by
  simp [planCond, initState, MAX_PLAN_LENGTH]

/-- Claim C3: for `total_dt > 0`, after every executed step of the
planning loop the `at_goal` flag is true if and only if the elapsed time
satisfies `(t+t_0) >= tau` and every dimension with a positive goal
threshold has `|x - goal|` within it (dimensions with non-positive
thresholds are ignored); in particular it is false while
`(t+t_0) < tau`. -/
theorem plan_at_goal_iff (P : PlanParams) (hdt : 0 < P.total_dt) (n : ℕ) :
    ((planRun P (n + 1) (initState P)).at_goal = true ↔
      atGoalSem P (planRun P (n + 1) (initState P))) := by
  have hc := planCond_init P
  have hstep : planRun P (n + 1) (initState P) =
      planRun P n (planStep P (initState P)) := by
    rw [planRun, if_pos hc]
  rw [hstep]
  have hKinit : (initState P).at_goal = true → P.tau ≤ (initState P).t + P.t_0 := by
    intro h
    simp [initState] at h
  exact at_goal_iff_run P (le_of_lt hdt) n (planStep P (initState P))
    (fun h => ((at_goal_step_iff P (le_of_lt hdt) hKinit).mp h).1)
    (at_goal_step_iff P (le_of_lt hdt) hKinit)

/-- Witness for C3 at the concrete parameters, first step. -/
theorem plan_at_goal_iff_witness :
    ((planRun Pcex 1 (initState Pcex)).at_goal = true ↔
      atGoalSem Pcex (planRun Pcex 1 (initState Pcex))) :=
  plan_at_goal_iff Pcex (by norm_num [Pcex]) 0

/-- Claim C9: with `integrate_iter >= 1` and `total_dt > 0` the
planning loop body runs at least once (the guard is true in the initial
state since `at_goal` starts false and `t = 0 < MAX_PLAN_LENGTH`), so the
produced trajectory has at least one point. -/
theorem plan_nonempty (P : PlanParams) (hii : 1 ≤ P.integrate_iter)
    (hdt : 0 < P.total_dt) (n : ℕ) (hn : 1 ≤ n) :
    1 ≤ (planPointsList P (planRun P n (initState P))).length := by
  have hc := planCond_init P
  obtain ⟨m, rfl⟩ : ∃ m, n = m + 1 := ⟨n - 1, by omega⟩
  rw [planPointsList, List.length_map, List.length_range]
  rw [planRun, if_pos hc]
  have h1 : (planStep P (initState P)).n_pts = 1 := by
    rw [planStep_n_pts]
    rfl
  have hmono := planRun_n_pts_mono P m (planStep P (initState P))
  omega

/-- Witness for C9 at the concrete parameters. -/
theorem plan_nonempty_witness :
    1 ≤ (planPointsList Pcex (planRun Pcex 1 (initState Pcex))).length :=
  plan_nonempty Pcex (by decide) (by norm_num [Pcex]) 1 le_rfl

/-- Loop invariant for the length bound: `t` counts the emitted points,
and every point but the first was emitted from a state whose pre-step time
was below `max (tau - t_0) MAX_PLAN_LENGTH` (the loop guard allows a step
either while `(t+t_0) < tau` or while `t < MAX_PLAN_LENGTH`). -/
def boundInv (P : PlanParams) (st : PlanState) : Prop :=
  st.t = (st.n_pts : ℚ) * P.total_dt ∧
    (st.n_pts = 0 ∨ ((st.n_pts : ℚ) - 1) * P.total_dt <
      max (P.tau - P.t_0) MAX_PLAN_LENGTH)

lemma planCond_lt_max {P : PlanParams} {st : PlanState}
    (h : planCond P st = true) :
    st.t < max (P.tau - P.t_0) MAX_PLAN_LENGTH := by
  unfold planCond at h
  simp only [Bool.and_eq_true, Bool.or_eq_true, Bool.not_eq_true',
    decide_eq_true_eq] at h
  rcases h.1 with h1 | h2
  · exact lt_max_of_lt_left (by linarith)
  · exact lt_max_of_lt_right h2.2

lemma boundInv_init (P : PlanParams) : boundInv P (initState P) :=
  ⟨by simp [initState], Or.inl rfl⟩

lemma boundInv_step (P : PlanParams) {st : PlanState} (h : boundInv P st)
    (hc : planCond P st = true) : boundInv P (planStep P st) := by
  obtain ⟨ht, -⟩ := h
  refine ⟨?_, Or.inr ?_⟩
  · rw [planStep_t, planStep_n_pts, ht]
    push_cast
    ring
  · rw [planStep_n_pts]
    have hlt := planCond_lt_max hc
    rw [ht] at hlt
    push_cast
    have he : ((st.n_pts : ℚ) + 1 - 1) * P.total_dt =
        (st.n_pts : ℚ) * P.total_dt := by ring
    rw [he]
    exact hlt

lemma boundInv_le (P : PlanParams) {st : PlanState} (hdt : 0 < P.total_dt)
    (h : boundInv P st) :
    (st.n_pts : ℚ) ≤ max (P.tau - P.t_0) MAX_PLAN_LENGTH / P.total_dt + 1 := by
  obtain ⟨-, h2⟩ := h
  have hmaxpos : (0 : ℚ) < max (P.tau - P.t_0) MAX_PLAN_LENGTH :=
    lt_max_of_lt_right (by norm_num [MAX_PLAN_LENGTH])
  have hdiv : (0 : ℚ) ≤ max (P.tau - P.t_0) MAX_PLAN_LENGTH / P.total_dt :=
    le_of_lt (div_pos hmaxpos hdt)
  rcases h2 with h0 | hlt
  · rw [h0]
    push_cast
    linarith
  · have hq : (st.n_pts : ℚ) - 1 <
        max (P.tau - P.t_0) MAX_PLAN_LENGTH / P.total_dt := by
      rw [lt_div_iff₀ hdt]
      exact hlt
    linarith

/-- Claim C4 counterexample: with `tau = 3000 > MAX_PLAN_LENGTH`,
`t_0 = 0`, `total_dt = 1000`, the loop runs until `(t+t_0) >= tau` and
produces 3 points — more than `MAX_PLAN_LENGTH / total_dt + 1 = 2` — so
the claimed bound fails (the guard caps `t` at `MAX_PLAN_LENGTH` only in
the goal-seeking disjunct, not while `(t+t_0) < tau`). -/
theorem plan_length_exceeds_claimed_bound :
    (0 : ℚ) < Pcex.total_dt ∧
      planCond Pcex (planRun Pcex 4 (initState Pcex)) = false ∧
      (planRun Pcex 4 (initState Pcex)).n_pts = 3 ∧
      ¬ (((planRun Pcex 4 (initState Pcex)).n_pts : ℚ) ≤
        MAX_PLAN_LENGTH / Pcex.total_dt + 1) := by
  have h3 : (planRun Pcex 4 (initState Pcex)).n_pts = 3 := by
    norm_num [planRun, planStep, planCond, initState, Pcex, apfStep,
      atGoalCheck, MAX_PLAN_LENGTH]
  have hcond : planCond Pcex (planRun Pcex 4 (initState Pcex)) = false := by
    norm_num [planRun, planStep, planCond, initState, Pcex, apfStep,
      atGoalCheck, MAX_PLAN_LENGTH]
  refine ⟨by norm_num [Pcex], hcond, h3, ?_⟩
  rw [h3]
  norm_num [Pcex, MAX_PLAN_LENGTH]

/-- Claim C4 (amended): for `total_dt > 0` the number of produced points
never exceeds `max (tau - t_0) MAX_PLAN_LENGTH / total_dt + 1` — the
`MAX_PLAN_LENGTH` cutoff only bounds the goal-seeking overtime, while the
loop always runs until `(t+t_0) >= tau` — and in particular the planning
loop always terminates (the guard eventually turns false and the state
freezes). -/
theorem plan_length_bound_and_terminates (P : PlanParams)
    (hdt : 0 < P.total_dt) :
    (∀ n : ℕ, ((planRun P n (initState P)).n_pts : ℚ) ≤
        max (P.tau - P.t_0) MAX_PLAN_LENGTH / P.total_dt + 1) ∧
      ∃ n : ℕ, planCond P (planRun P n (initState P)) = false := by
  have hinv : ∀ n, boundInv P (planRun P n (initState P)) :=
    fun n => planRun_preserve P (boundInv P)
      (fun _ h hc => boundInv_step P h hc) n _ (boundInv_init P)
  refine ⟨fun n => boundInv_le P hdt (hinv n), ?_⟩
  by_contra hno
  push_neg at hno
  have hall : ∀ n, planCond P (planRun P n (initState P)) = true := by
    intro n
    cases hb : planCond P (planRun P n (initState P))
    · exact absurd hb (hno n)
    · rfl
  have hcount : ∀ n : ℕ, (planRun P n (initState P)).n_pts = n := by
    intro n
    have hp := planRun_progress P n (initState P) (hall n)
    simpa [initState] using hp
  obtain ⟨N, hN⟩ :=
    exists_nat_gt (max (P.tau - P.t_0) MAX_PLAN_LENGTH / P.total_dt + 1)
  have hb := boundInv_le P hdt (hinv N)
  rw [hcount N] at hb
  linarith

/-- Witness for C4 (amended) at the concrete parameters. -/
theorem plan_length_bound_witness :
    (0 : ℚ) < Pcex.total_dt ∧
      ((planRun Pcex 2 (initState Pcex)).n_pts : ℚ) ≤
        max (Pcex.tau - Pcex.t_0) MAX_PLAN_LENGTH / Pcex.total_dt + 1 :=
  ⟨by norm_num [Pcex],
    (plan_length_bound_and_terminates Pcex (by norm_num [Pcex])).1 2⟩

end DMP
